import Mathlib

/-
Verification of the job-polling client and menu-text normalizers of the
Singapore AI Dietician dashboard (src/app.py), as a shallow embedding.

Modelling conventions:
- JSON payloads are values of the inductive type Json below; Python dict
  truthiness is Json.isTruthy.
- Every HTTP request's outcome is an HttpResult: either a response with a
  status code and a JSON body, or one of the failure modes the script
  catches (timeout, connection error, other exception).
- The polling loop of poll_job_until_complete consumes a list of
  HttpResult values, one per status request it issues.  Exhausting the
  list means the loop is still running and would issue a further request.
  The returned Nat counts the status requests issued (poll_count).
- Strings are processed as lists of characters; whitespace and digits are
  modelled as ASCII (Char.isWhitespace / Char.isDigit), matching the menu
  data the script handles.
- The regex substitutions of app.py are implemented as left-to-right
  scanners.  subAllFuel uses fuel = length of the scanned text, which is
  sufficient since every successful match consumes at least one character
  and every scanning step advances by at least one character.
-/

inductive Json where
  | null : Json
  | bool (b : Bool) : Json
  | num (n : Int) : Json
  | str (s : String) : Json
  | arr (elems : List Json) : Json
  | obj (fields : List (String × Json)) : Json

/-- Python truthiness of a JSON value (`if not status_data`, app.py:390). -/
def Json.isTruthy : Json → Bool
  | .null => false
  | .bool b => b
  | .num n => n != 0
  | .str s => !s.isEmpty
  | .arr elems => !elems.isEmpty
  | .obj fields => !fields.isEmpty

/-- Python `d[k]` / `d.get(k)` lookup on a JSON object (first matching key). -/
def Json.get : Json → String → Option Json
  | .obj fields, key => Option.map Prod.snd (List.find? (fun p => p.1 == key) fields)
  | _, _ => none

/-- Outcome of one HTTP request as seen by the script's try/except blocks. -/
inductive HttpResult where
  | response (code : Nat) (body : Json) : HttpResult
  | timeout : HttpResult
  | connectionError : HttpResult
  | exception : HttpResult

/-- get_job_status, app.py:216-238: 200 returns the body, 404 synthesizes a
not_found payload client-side, anything else (and every exception) yields None. -/
def get_job_status (r : HttpResult) : Option Json :=
  match r with
  | .response code body =>
    if code = 200 then some body
    else if code = 404 then
      some (Json.obj [("status", Json.str "not_found"), ("error", Json.str "Job not found or expired")])
    else none
  | _ => none

/-- status_data.get("status", "unknown") (app.py:394) followed by Python string
comparison: a non-string status value compares unequal to every string literal,
which we model as none. -/
def jobStatus (sd : Json) : Option String :=
  match Json.get sd "status" with
  | some (Json.str s) => some s
  | some _ => none
  | none => some "unknown"

inductive PollOutcome where
  | completed (payload : Json) : PollOutcome
  | aborted : PollOutcome
  | ranOut : PollOutcome

/-- One iteration of the polling loop body (app.py:387-416): some out means the
loop returns, none means it sleeps and polls again. -/
def pollStep (r : HttpResult) : Option PollOutcome :=
  match get_job_status r with
  | none => some PollOutcome.aborted
  | some sd =>
    if sd.isTruthy then
      if jobStatus sd = some "completed" then some (PollOutcome.completed sd)
      else if jobStatus sd = some "failed" then some PollOutcome.aborted
      else if jobStatus sd = some "not_found" then some PollOutcome.aborted
      else none
    else some PollOutcome.aborted

/-- The while-True loop of poll_job_until_complete (app.py:386-416), consuming
one HttpResult per status request; n counts requests issued so far.  Note the
source never compares poll_count against max_polls, so exhausting the supplied
responses means the loop is still running (PollOutcome.ranOut). -/
def pollLoopAux : List HttpResult → Nat → PollOutcome × Nat
  | [], n => (PollOutcome.ranOut, n)
  | r :: rest, n =>
    match pollStep r with
    | some out => (out, n + 1)
    | none => pollLoopAux rest (n + 1)

/-- poll_job_until_complete, app.py:381-420, as a function of the sequence of
status-request outcomes.  Returns the loop outcome and the number of status
requests issued. -/
def poll_job_until_complete (responses : List HttpResult) : PollOutcome × Nat :=
  pollLoopAux responses 0

/-- A response on which the loop sleeps and continues to the next attempt. -/
def continuesPolling (r : HttpResult) : Bool :=
  (pollStep r).isNone

def pendingPayload : Json :=
  Json.obj [("status", Json.str "pending"), ("progress", Json.num 10)]

def pendingResponse : HttpResult :=
  HttpResult.response 200 pendingPayload

def completedPayload : Json :=
  Json.obj [("status", Json.str "completed"), ("result", Json.str "ok")]

def completedResponse : HttpResult :=
  HttpResult.response 200 completedPayload

def failedPayload : Json :=
  Json.obj [("status", Json.str "failed"), ("error", Json.str "boom")]

def failedResponse : HttpResult :=
  HttpResult.response 200 failedPayload

/-- Python content.split(sep) for a one-character separator: every occurrence
separates, empty pieces are kept. -/
def splitOnChar (sep : Char) : List Char → List (List Char)
  | [] => [[]]
  | c :: rest =>
    match splitOnChar sep rest, c == sep with
    | r, true => [] :: r
    | [], false => [[c]]
    | l :: ls, false => (c :: l) :: ls

/-- Python str.strip(): drop whitespace from both ends. -/
def stripWs (cs : List Char) : List Char :=
  ((cs.dropWhile Char.isWhitespace).reverse.dropWhile Char.isWhitespace).reverse

/-- Python line.startswith(single character c). -/
def startsWithChar (c : Char) : List Char → Bool
  | [] => false
  | x :: _ => x = c

/-- Python line.isnumeric() restricted to ASCII digits. -/
def isNumericStr (cs : List Char) : Bool :=
  !cs.isEmpty && cs.all Char.isDigit

/-- Python substring containment (needle in line). -/
def hasSubstring (needle : List Char) : List Char → Bool
  | [] => needle.isEmpty
  | c :: rest => List.isPrefixOf needle (c :: rest) || hasSubstring needle rest

/-- Match one-or-more digits at the head (greedy); returns the remainder. -/
def digitSpan (cs : List Char) : Option (List Char) :=
  if (cs.takeWhile Char.isDigit).isEmpty then none
  else some (cs.dropWhile Char.isDigit)

/-- Match the price pattern digits '.' digits at the head.  The greedy digit
runs cannot backtrack into a successful match in any other way because a digit
is never a dot. -/
def matchPrice (cs : List Char) : Option (List Char) :=
  match digitSpan cs with
  | some ('.' :: r2) => digitSpan r2
  | _ => none

/-- Match a slash followed by the price pattern at the head. -/
def matchSlashPrice : List Char → Option (List Char)
  | '/' :: r => matchPrice r
  | _ => none

/-- Match a plus sign, optional whitespace, then digits at the head. -/
def matchPlusNumber : List Char → Option (List Char)
  | '+' :: r => digitSpan (r.dropWhile Char.isWhitespace)
  | _ => none

/-- Left-to-right scan deleting every match of m (Python re.sub(pattern, "")).
Fuel is the number of scanning steps still allowed; fuel = initial length is
enough because each step consumes at least one character. -/
def subAllFuel (m : List Char → Option (List Char)) : Nat → List Char → List Char
  | _, [] => []
  | 0, cs => cs
  | fuel + 1, c :: rest =>
    match m (c :: rest) with
    | some rem => subAllFuel m fuel rem
    | none => c :: subAllFuel m fuel rest

def subAll (m : List Char → Option (List Char)) (cs : List Char) : List Char :=
  subAllFuel m cs.length cs

/-- Python re.sub(price pattern followed by end anchor, ""): keep the text
before the leftmost price match, drop the rest. -/
def truncAtPrice : List Char → List Char
  | [] => []
  | c :: rest => if (matchPrice (c :: rest)).isSome then [] else c :: truncAtPrice rest

/-- The four noise section headings both normalizers reject (app.py:322,369). -/
def noiseStrings : List String :=
  ["LUNCH SPECIALS", "BURGERS/MAINS", "MON-THU", "TILL4PM"]

def noiseHeadings : List (List Char) :=
  noiseStrings.map String.toList

def middot : Char := '·'

def imgPathChars : List Char := "img_path".toList

def typeChars : List Char := "type".toList

/-- The price/markup cleanup chain of extract_menu_items_from_content
(app.py:312-316): strip prices, slash-prices, "+n" markers, everything after
a pipe, then strip whitespace. -/
def extractClean (line : List Char) : List Char :=
  stripWs ((subAll matchPlusNumber (subAll matchSlashPrice (subAll matchPrice line))).takeWhile
    (fun c => c ≠ '|'))

/-- The cleanup chain of parse_menu_items_simple (app.py:362-366): drop the
price and everything after it, drop the slash and everything after it, strip. -/
def simpleClean (line : List Char) : List Char :=
  stripWs ((truncAtPrice line).takeWhile (fun c => c ≠ '/'))

/-- Line filter of extract_menu_items_from_content (app.py:301-309). -/
def extractLinePre (line : List Char) : Bool :=
  !line.isEmpty && !startsWithChar '{' line && !startsWithChar middot line &&
  !startsWithChar '?' line && decide (3 < line.length) && !isNumericStr line &&
  !hasSubstring imgPathChars line

/-- Line filter of parse_menu_items_simple (app.py:350-358). -/
def simpleLinePre (line : List Char) : Bool :=
  !line.isEmpty && !startsWithChar '{' line && !startsWithChar middot line &&
  !startsWithChar '?' line && decide (5 < line.length) && !isNumericStr line &&
  !hasSubstring imgPathChars line && !hasSubstring typeChars line

/-- Post-cleanup filter of extract_menu_items_from_content (app.py:319-325). -/
def extractGuard (cleaned : List Char) : Option (List Char) :=
  if 5 < cleaned.length ∧ cleaned ∉ noiseHeadings ∧ startsWithChar middot cleaned = false then
    some cleaned
  else none

/-- Post-cleanup filter of parse_menu_items_simple (app.py:368-374). -/
def simpleGuard (cleaned : List Char) : Option (List Char) :=
  if 3 < cleaned.length ∧ cleaned ∉ noiseHeadings then some cleaned else none

/-- One loop body of extract_menu_items_from_content (app.py:298-325). -/
def extractLineItem (rawLine : List Char) : Option (List Char) :=
  if extractLinePre (stripWs rawLine) then extractGuard (extractClean (stripWs rawLine))
  else none

/-- One loop body of parse_menu_items_simple (app.py:347-374). -/
def simpleLineItem (rawLine : List Char) : Option (List Char) :=
  if simpleLinePre (stripWs rawLine) then simpleGuard (simpleClean (stripWs rawLine))
  else none

/-- Python list(dict.fromkeys(xs)): keep the first occurrence of each element. -/
def dedupFirstAux {α : Type} [DecidableEq α] (seen : List α) : List α → List α
  | [] => []
  | a :: as => if a ∈ seen then dedupFirstAux seen as else a :: dedupFirstAux (a :: seen) as

def dedupKeepFirst {α : Type} [DecidableEq α] (l : List α) : List α :=
  dedupFirstAux [] l

/-- The AI-assisted extractor's own line pipeline (app.py:295-329): split into
lines, filter and clean each, dedup exactly in first-occurrence order, keep at
most 15. -/
def extractCore (content : String) : List (List Char) :=
  (dedupKeepFirst ((splitOnChar '\n' content.toList).filterMap extractLineItem)).take 15

/-- parse_menu_items_simple's pipeline (app.py:344-378): like extractCore but
with its own filters and a cap of 12. -/
def simpleCore (content : String) : List (List Char) :=
  (dedupKeepFirst ((splitOnChar '\n' content.toList).filterMap simpleLineItem)).take 12

/-- parse_menu_items_simple, app.py:340-378. -/
def parse_menu_items_simple (content : String) : List String :=
  (simpleCore content).map String.mk

/-- The AI-assist request succeeds when the backend answers 200 with a body
carrying a "recommendations" key (app.py:281-289); a missing key raises
KeyError, handled like every other failure. -/
def aiCallSucceeded : HttpResult → Bool
  | .response code body => code == 200 && (Json.get body "recommendations").isSome
  | _ => false

def aiCallFailed (r : HttpResult) : Bool :=
  !aiCallSucceeded r

/-- extract_menu_items_from_content, app.py:267-337: on AI-call success run the
line pipeline over the document content (the AI text itself is never used); on
a non-200 answer or any exception fall back to parse_menu_items_simple. -/
def extract_menu_items_from_content (resp : HttpResult) (content : String) : List String :=
  if aiCallSucceeded resp then (extractCore content).map String.mk
  else parse_menu_items_simple content

def containsNoNoise (items : List String) : Bool :=
  items.all (fun s => decide (s ∉ noiseStrings))

def asciiLowerChar (c : Char) : Char :=
  if 'A' ≤ c ∧ c ≤ 'Z' then Char.ofNat (c.toNat + 32) else c

def asciiLower (s : String) : String :=
  String.mk (s.toList.map asciiLowerChar)

/-- The typed-menu parser of main (app.py:939-943): replace newlines with
commas, split on commas, strip each piece, drop blanks. -/
def parseTypedMenuItems (input : String) : List String :=
  ((((splitOnChar ',' (input.toList.map (fun c => if c = '\n' then ',' else c))).map
      stripWs).filter (fun l => !l.isEmpty)).map String.mk)

/-- A request that raised (connection error, timeout or other exception) rather
than producing an HTTP response. -/
def requestFailed : HttpResult → Bool
  | .response _ _ => false
  | _ => true

/-- check_backend_health, app.py:100-112: GET /health, on 200 report healthy;
otherwise GET / and report its code; any exception reports unhealthy.  The two
arguments are the outcomes of the two requests. -/
def check_backend_health (healthResp rootResp : HttpResult) : Bool :=
  match healthResp with
  | .response code _ =>
    if code = 200 then true
    else
      match rootResp with
      | .response code2 _ => code2 == 200
      | _ => false
  | _ => false

/-- The environment main reads: outcomes of its two health probes (sidebar,
app.py:438, and main body, app.py:570), the session's API-key state, and the
analysis form state.  menuItemsInput is the form's menu text, whichever input
method produced it. -/
structure MainEnv where
  sidebarHealthResp : HttpResult
  sidebarRootResp : HttpResult
  mainHealthResp : HttpResult
  mainRootResp : HttpResult
  apiKey : String
  apiKeyValid : Bool
  submitted : Bool
  menuItemsInput : String

inductive MainResult where
  | haltedBackendDown : MainResult
  | haltedNoApiKey : MainResult
  | haltedKeyNotValidated : MainResult
  | ran (analysis : Bool) : MainResult

/-- The gating control flow of main (app.py:423-959): return at app.py:445 or
stop at app.py:571 when a health check fails, stop without an API key
(app.py:574-606) or with an unvalidated one (app.py:608-613); otherwise the
analyze-menu request is issued iff the form was submitted with nonblank input
that parses to a nonempty item list (app.py:937-951). -/
def App.main (env : MainEnv) : MainResult :=
  if check_backend_health env.sidebarHealthResp env.sidebarRootResp = false then
    MainResult.haltedBackendDown
  else if check_backend_health env.mainHealthResp env.mainRootResp = false then
    MainResult.haltedBackendDown
  else if env.apiKey = "" then MainResult.haltedNoApiKey
  else if env.apiKeyValid = false then MainResult.haltedKeyNotValidated
  else
    MainResult.ran
      (env.submitted && !(stripWs env.menuItemsInput.toList).isEmpty &&
        !(parseTypedMenuItems env.menuItemsInput).isEmpty)

/-- Whether the flow reached the analyze_menu_api call (app.py:951). -/
def analysisRequested : MainResult → Bool
  | .ran b => b
  | _ => false

def deadBackendEnv : MainEnv :=
  ⟨HttpResult.connectionError, HttpResult.connectionError, HttpResult.connectionError,
   HttpResult.connectionError, "fai_key", true, true, "Chicken Rice"⟩

/-- The hardcoded common-dish fallback list (app.py:713-722). -/
def fallback_items : List String :=
  ["Chicken Rice", "Laksa", "Char Kway Teow", "Prawn Mee", "Bak Chor Mee",
   "Fish and Chips", "Nasi Lemak", "Kaya Toast"]

/-- The document_content field of the extract-menu response; the backend
returns it as text (spec section 6), so a string value is read and anything
else is treated as absent. -/
def documentContent (j : Json) : Option String :=
  match Json.get j "document_content" with
  | some (Json.str c) => some c
  | _ => none

inductive ContentOutcome where
  | extracted (items : List String) : ContentOutcome
  | fallback (items : List String) : ContentOutcome

/-- The branch of main after extract_menu_from_job returns (app.py:665-724):
with truthy extraction_result carrying truthy document_content, run the
AI-assisted item extraction on it; otherwise select the first three hardcoded
common Singapore dishes. -/
def handle_extraction_result (extraction : Option Json) (aiResp : HttpResult) : ContentOutcome :=
  match extraction with
  | some j =>
    if j.isTruthy then
      match documentContent j with
      | some c =>
        if c = "" then ContentOutcome.fallback (fallback_items.take 3)
        else ContentOutcome.extracted (extract_menu_items_from_content aiResp c)
      | none => ContentOutcome.fallback (fallback_items.take 3)
    else ContentOutcome.fallback (fallback_items.take 3)
  | none => ContentOutcome.fallback (fallback_items.take 3)

/-- Document-content extraction yielded nothing: no response payload, a falsy
one, or a missing/empty document_content field (the condition at app.py:665). -/
def extractionYieldsNothing : Option Json → Bool
  | none => true
  | some j =>
    !j.isTruthy ||
      (match documentContent j with
       | some c => c == ""
       | none => true)


lemma string_mk_injective : Function.Injective String.mk := by
  intro a b h
  injection h

lemma dedupFirstAux_spec {α : Type} [DecidableEq α] (l : List α) :
    ∀ seen : List α, (dedupFirstAux seen l).Nodup ∧
      ∀ x ∈ dedupFirstAux seen l, x ∉ seen ∧ x ∈ l := by
  induction l with
  | nil =>
    intro seen
    refine ⟨by simp [dedupFirstAux], ?_⟩
    intro x hx
    simp [dedupFirstAux] at hx
  | cons a as ih =>
    intro seen
    by_cases ha : a ∈ seen
    · have h := ih seen
      rw [dedupFirstAux, if_pos ha]
      refine ⟨h.1, ?_⟩
      intro x hx
      exact ⟨(h.2 x hx).1, List.mem_cons_of_mem a (h.2 x hx).2⟩
    · have h := ih (a :: seen)
      rw [dedupFirstAux, if_neg ha]
      constructor
      · refine List.nodup_cons.mpr ⟨?_, h.1⟩
        intro hmem
        exact absurd (List.mem_cons_self a seen) (h.2 a hmem).1
      · intro x hx
        rcases List.mem_cons.mp hx with hx | hx
        · exact ⟨hx ▸ ha, hx ▸ List.mem_cons_self a as⟩
        · have h2 := h.2 x hx
          refine ⟨fun hs => h2.1 (List.mem_cons_of_mem a hs), List.mem_cons_of_mem a h2.2⟩

lemma dedupKeepFirst_nodup {α : Type} [DecidableEq α] (l : List α) :
    (dedupKeepFirst l).Nodup :=
  (dedupFirstAux_spec l []).1

lemma mem_of_mem_dedupKeepFirst {α : Type} [DecidableEq α] (l : List α) (x : α)
    (h : x ∈ dedupKeepFirst l) : x ∈ l :=
  ((dedupFirstAux_spec l []).2 x h).2

lemma extractGuard_spec (c x : List Char) (h : extractGuard c = some x) :
    x = c ∧ x ∉ noiseHeadings := by
  unfold extractGuard at h
  split at h
  · rename_i hc
    cases h
    exact ⟨rfl, hc.2.1⟩
  · exact Option.noConfusion h

lemma simpleGuard_spec (c x : List Char) (h : simpleGuard c = some x) :
    x = c ∧ x ∉ noiseHeadings := by
  unfold simpleGuard at h
  split at h
  · rename_i hc
    cases h
    exact ⟨rfl, hc.2⟩
  · exact Option.noConfusion h

lemma extractLineItem_not_noise (raw x : List Char) (h : extractLineItem raw = some x) :
    x ∉ noiseHeadings := by
  unfold extractLineItem at h
  split at h
  · exact (extractGuard_spec _ _ h).2
  · exact Option.noConfusion h

lemma simpleLineItem_not_noise (raw x : List Char) (h : simpleLineItem raw = some x) :
    x ∉ noiseHeadings := by
  unfold simpleLineItem at h
  split at h
  · exact (simpleGuard_spec _ _ h).2
  · exact Option.noConfusion h

lemma mem_extractCore_not_noise (content : String) (x : List Char)
    (h : x ∈ extractCore content) : x ∉ noiseHeadings := by
  unfold extractCore at h
  have h1 := (List.take_sublist 15 _).subset h
  have h2 := mem_of_mem_dedupKeepFirst _ _ h1
  obtain ⟨line, _, hsome⟩ := List.mem_filterMap.mp h2
  exact extractLineItem_not_noise line x hsome

lemma mem_simpleCore_not_noise (content : String) (x : List Char)
    (h : x ∈ simpleCore content) : x ∉ noiseHeadings := by
  unfold simpleCore at h
  have h1 := (List.take_sublist 12 _).subset h
  have h2 := mem_of_mem_dedupKeepFirst _ _ h1
  obtain ⟨line, _, hsome⟩ := List.mem_filterMap.mp h2
  exact simpleLineItem_not_noise line x hsome

lemma extractCore_nodup (content : String) : (extractCore content).Nodup :=
  List.Nodup.sublist (List.take_sublist 15 _) (dedupKeepFirst_nodup _)

lemma simpleCore_nodup (content : String) : (simpleCore content).Nodup :=
  List.Nodup.sublist (List.take_sublist 12 _) (dedupKeepFirst_nodup _)

lemma extractCore_length_le (content : String) : (extractCore content).length ≤ 15 := by
  unfold extractCore
  exact List.length_take_le 15 _

lemma simpleCore_length_le (content : String) : (simpleCore content).length ≤ 12 := by
  unfold simpleCore
  exact List.length_take_le 12 _

lemma core_noise_free (core : List (List Char)) (h : ∀ x ∈ core, x ∉ noiseHeadings) :
    containsNoNoise (core.map String.mk) = true := by
  rw [containsNoNoise, List.all_eq_true]
  intro s hs
  obtain ⟨cs, hcs, rfl⟩ := List.mem_map.mp hs
  have hns : String.mk cs ∉ noiseStrings := by
    intro hmem
    apply h cs hcs
    unfold noiseHeadings
    exact List.mem_map.mpr ⟨String.mk cs, hmem, rfl⟩
  exact decide_eq_true hns

lemma parse_simple_noise_free (content : String) :
    containsNoNoise (parse_menu_items_simple content) = true :=
  core_noise_free _ (mem_simpleCore_not_noise content)

lemma parse_simple_nodup (content : String) : (parse_menu_items_simple content).Nodup :=
  List.Nodup.map string_mk_injective (simpleCore_nodup content)

lemma parse_simple_length_le (content : String) :
    (parse_menu_items_simple content).length ≤ 12 := by
  unfold parse_menu_items_simple
  rw [List.length_map]
  exact simpleCore_length_le content

lemma isTruthy_of_get_some (sd : Json) (k : String) (v : Json)
    (h : Json.get sd k = some v) : sd.isTruthy = true := by
  cases sd with
  | obj fields =>
    cases fields with
    | nil => simp [Json.get] at h
    | cons p ps => rfl
  | null => simp [Json.get] at h
  | bool b => simp [Json.get] at h
  | num n => simp [Json.get] at h
  | str s => simp [Json.get] at h
  | arr elems => simp [Json.get] at h

lemma isTruthy_of_jobStatus (sd : Json) (s : String) (h : jobStatus sd = some s)
    (hs : s ≠ "unknown") : sd.isTruthy = true := by
  unfold jobStatus at h
  cases hg : Json.get sd "status" with
  | none =>
    rw [hg] at h
    simp at h
    exact absurd h.symm hs
  | some v => exact isTruthy_of_get_some sd "status" v hg

lemma pollStep_eq_completed (r : HttpResult) (payload : Json)
    (h2 : get_job_status r = some payload) (h3 : jobStatus payload = some "completed") :
    pollStep r = some (PollOutcome.completed payload) := by
  have ht : payload.isTruthy = true :=
    isTruthy_of_jobStatus payload "completed" h3 (by decide)
  simp [pollStep, h2, ht, h3]

lemma pollStep_eq_aborted_of_terminal (r : HttpResult) (payload : Json)
    (h2 : get_job_status r = some payload)
    (h3 : jobStatus payload = some "failed" ∨ jobStatus payload = some "not_found") :
    pollStep r = some PollOutcome.aborted := by
  cases h3 with
  | inl hf =>
    have ht : payload.isTruthy = true := isTruthy_of_jobStatus payload "failed" hf (by decide)
    simp [pollStep, h2, ht, hf]
  | inr hn =>
    have ht : payload.isTruthy = true := isTruthy_of_jobStatus payload "not_found" hn (by decide)
    simp [pollStep, h2, ht, hn]

lemma pollStep_eq_aborted_of_error (r : HttpResult) (h2 : get_job_status r = none) :
    pollStep r = some PollOutcome.aborted := by
  simp [pollStep, h2]

lemma pollLoopAux_cons_stop (r : HttpResult) (rest : List HttpResult) (n : Nat)
    (out : PollOutcome) (h : pollStep r = some out) :
    pollLoopAux (r :: rest) n = (out, n + 1) := by
  simp [pollLoopAux, h]

lemma pollLoopAux_append (pre l : List HttpResult) (n : Nat) :
    pre.all continuesPolling = true →
      pollLoopAux (pre ++ l) n = pollLoopAux l (n + pre.length) := by
  induction pre generalizing n with
  | nil =>
    intro _
    simp
  | cons r rs ih =>
    intro h
    rw [List.all_cons, Bool.and_eq_true] at h
    have hr : pollStep r = none := by
      have h1 := h.1
      unfold continuesPolling at h1
      exact Option.isNone_iff_eq_none.mp h1
    rw [List.cons_append]
    have hstep : pollLoopAux (r :: (rs ++ l)) n = pollLoopAux (rs ++ l) (n + 1) := by
      simp [pollLoopAux, hr]
    rw [hstep, ih (n + 1) h.2]
    have harith : n + 1 + rs.length = n + (r :: rs).length := by
      simp only [List.length_cons]
      omega
    rw [harith]

/-- C1: the claim says poll_job_until_complete stops after at most 100 status
requests and reports a timeout on never-terminal status sequences.  The code
does not: its while-True loop never consults max_polls, so on an all-pending
sequence it consumes every available response (n requests for every n,
including 150 > 100) and is still polling; the timeout report after the loop
is unreachable. -/
theorem poll_ignores_attempt_budget :
    (∀ n : Nat,
      poll_job_until_complete (List.replicate n pendingResponse) = (PollOutcome.ranOut, n)) ∧
    100 < (poll_job_until_complete (List.replicate 150 pendingResponse)).2 := by
  have key : ∀ n : Nat,
      poll_job_until_complete (List.replicate n pendingResponse) = (PollOutcome.ranOut, n) := by
    intro n
    have hall : (List.replicate n pendingResponse).all continuesPolling = true := by
      rw [List.all_eq_true]
      intro r hr
      rw [List.eq_of_mem_replicate hr]
      rfl
    unfold poll_job_until_complete
    have h := pollLoopAux_append (List.replicate n pendingResponse) [] 0 hall
    rw [List.append_nil] at h
    rw [h]
    simp [pollLoopAux, List.length_replicate]
  refine ⟨key, ?_⟩
  rw [key 150]
  norm_num

/-- C3: whenever every status response before the final one keeps the loop
polling (request succeeded, truthy payload, non-terminal status) and the final
response carries a payload whose status is completed, poll_job_until_complete
returns exactly that payload, after exactly one request beyond the prefix,
whatever responses would follow. -/
theorem poll_returns_completed_payload (pre : List HttpResult) (fr : HttpResult)
    (rest : List HttpResult) (payload : Json)
    (h1 : pre.all continuesPolling = true)
    (h2 : get_job_status fr = some payload)
    (h3 : jobStatus payload = some "completed") :
    poll_job_until_complete (pre ++ fr :: rest) = (PollOutcome.completed payload, pre.length + 1) := by
  unfold poll_job_until_complete
  rw [pollLoopAux_append pre (fr :: rest) 0 h1]
  rw [pollLoopAux_cons_stop fr rest (0 + pre.length) (PollOutcome.completed payload)
    (pollStep_eq_completed fr payload h2 h3)]
  congr 1
  omega

/-- C3 witness: after one pending response, a completed response makes the loop
return that payload on the second request. -/
theorem poll_returns_completed_payload_witness :
    poll_job_until_complete [pendingResponse, completedResponse] =
      (PollOutcome.completed completedPayload, 2) := by
  have h := poll_returns_completed_payload [pendingResponse] completedResponse [] completedPayload
    rfl rfl rfl
  simpa using h

/-- C4: once a status response carries a failed or not_found status, the loop
returns no payload after exactly one request beyond the prefix, issuing no
request for any of the responses that follow. -/
theorem poll_stops_on_terminal (pre : List HttpResult) (tr : HttpResult)
    (rest : List HttpResult) (payload : Json)
    (h1 : pre.all continuesPolling = true)
    (h2 : get_job_status tr = some payload)
    (h3 : jobStatus payload = some "failed" ∨ jobStatus payload = some "not_found") :
    poll_job_until_complete (pre ++ tr :: rest) = (PollOutcome.aborted, pre.length + 1) := by
  unfold poll_job_until_complete
  rw [pollLoopAux_append pre (tr :: rest) 0 h1]
  rw [pollLoopAux_cons_stop tr rest (0 + pre.length) PollOutcome.aborted
    (pollStep_eq_aborted_of_terminal tr payload h2 h3)]
  congr 1
  omega

/-- C4 witness: a failed status on the first request aborts immediately even
though a further response was available. -/
theorem poll_stops_on_terminal_witness :
    poll_job_until_complete [failedResponse, pendingResponse] = (PollOutcome.aborted, 1) := by
  have h := poll_stops_on_terminal [] failedResponse [pendingResponse] failedPayload
    rfl rfl (Or.inl rfl)
  simpa using h

/-- C9: if one status request yields no data (get_job_status returns None),
the loop aborts at that attempt with no payload and no retry, issuing no
request for any of the responses that follow. -/
theorem poll_aborts_on_status_error (pre : List HttpResult) (bad : HttpResult)
    (rest : List HttpResult)
    (h1 : pre.all continuesPolling = true)
    (h2 : get_job_status bad = none) :
    poll_job_until_complete (pre ++ bad :: rest) = (PollOutcome.aborted, pre.length + 1) := by
  unfold poll_job_until_complete
  rw [pollLoopAux_append pre (bad :: rest) 0 h1]
  rw [pollLoopAux_cons_stop bad rest (0 + pre.length) PollOutcome.aborted
    (pollStep_eq_aborted_of_error bad h2)]
  congr 1
  omega

/-- C9 witness: a timed-out status request after one pending response aborts
the loop on the second attempt despite a further response being available. -/
theorem poll_aborts_on_status_error_witness :
    poll_job_until_complete [pendingResponse, HttpResult.timeout, pendingResponse] =
      (PollOutcome.aborted, 2) := by
  have h := poll_aborts_on_status_error [pendingResponse] HttpResult.timeout [pendingResponse]
    rfl rfl
  simpa using h

/-- C10: an HTTP 404 on the job-status endpoint is not an error: whatever the
backend body says, get_job_status returns the client-synthesized payload with
status not_found and the fixed error text. -/
theorem get_job_status_synthesizes_not_found (body : Json) :
    get_job_status (HttpResult.response 404 body) =
      some (Json.obj [("status", Json.str "not_found"),
        ("error", Json.str "Job not found or expired")]) := rfl

/-- C2 counterexample: on the two-line input below both normalizers return two
distinct items that are equal ignoring letter case, so the dedup is not
case-insensitive (dict.fromkeys compares exactly). -/
theorem menu_dedup_not_case_insensitive :
    ¬ ((((parse_menu_items_simple "Laksa One\nLAKSA ONE").map asciiLower).Nodup) ∧
       (((extract_menu_items_from_content
            (HttpResult.response 200 (Json.obj [("recommendations", Json.str "ok")]))
            "Laksa One\nLAKSA ONE").map asciiLower).Nodup)) := by
  decide

/-- C2 amended: both normalizers return a list with no two identical items
(exact, case-sensitive first-occurrence deduplication); items differing only
in letter case may both be returned. -/
theorem menu_normalizers_exact_nodup (resp : HttpResult) (content : String) :
    (extract_menu_items_from_content resp content).Nodup ∧
      (parse_menu_items_simple content).Nodup := by
  constructor
  · unfold extract_menu_items_from_content
    split
    · exact List.Nodup.map string_mk_injective (extractCore_nodup content)
    · exact parse_simple_nodup content
  · exact parse_simple_nodup content

/-- C5: extract_menu_items_from_content returns at most 15 items and
parse_menu_items_simple at most 12, and neither ever returns one of the four
noise headings. -/
theorem menu_normalizers_bounded_and_noise_free (resp : HttpResult) (content : String) :
    (extract_menu_items_from_content resp content).length ≤ 15 ∧
      (parse_menu_items_simple content).length ≤ 12 ∧
      containsNoNoise (extract_menu_items_from_content resp content) = true ∧
      containsNoNoise (parse_menu_items_simple content) = true := by
  refine ⟨?_, parse_simple_length_le content, ?_, parse_simple_noise_free content⟩
  · unfold extract_menu_items_from_content
    split
    · rw [List.length_map]
      exact extractCore_length_le content
    · exact le_trans (parse_simple_length_le content) (by norm_num)
  · unfold extract_menu_items_from_content
    split
    · exact core_noise_free _ (mem_extractCore_not_noise content)
    · exact parse_simple_noise_free content

/-- C6: the typed-menu parser maps "Chicken Rice\nLaksa, Kaya Toast" to exactly
["Chicken Rice", "Laksa", "Kaya Toast"]. -/
theorem typed_menu_parser_example :
    parseTypedMenuItems "Chicken Rice\nLaksa, Kaya Toast" =
      ["Chicken Rice", "Laksa", "Kaya Toast"] := by
  decide

/-- C7: when the /health request and the fallback / request both raise,
check_backend_health reports false, and main halts at the failed health check,
so the analyze-menu request is never issued. -/
theorem backend_down_halts_before_analysis (env : MainEnv)
    (h1 : requestFailed env.sidebarHealthResp = true)
    (h2 : requestFailed env.sidebarRootResp = true) :
    check_backend_health env.sidebarHealthResp env.sidebarRootResp = false ∧
      App.main env = MainResult.haltedBackendDown ∧
      analysisRequested (App.main env) = false := by
  have hc : check_backend_health env.sidebarHealthResp env.sidebarRootResp = false := by
    unfold check_backend_health
    cases hh : env.sidebarHealthResp with
    | response code body =>
      rw [hh] at h1
      simp [requestFailed] at h1
    | timeout => rfl
    | connectionError => rfl
    | exception => rfl
  have hm : App.main env = MainResult.haltedBackendDown := by
    unfold App.main
    rw [if_pos hc]
  exact ⟨hc, hm, by rw [hm]; rfl⟩

/-- C7 witness: with every request raising a connection error, the health check
is false and main halts before any analysis call. -/
theorem backend_down_halts_before_analysis_witness :
    check_backend_health deadBackendEnv.sidebarHealthResp deadBackendEnv.sidebarRootResp = false ∧
      App.main deadBackendEnv = MainResult.haltedBackendDown ∧
      analysisRequested (App.main deadBackendEnv) = false :=
  backend_down_halts_before_analysis deadBackendEnv rfl rfl

/-- C8: if the AI-assisted call fails (non-200, missing key, or exception),
extract_menu_items_from_content degrades to parse_menu_items_simple on the same
content; and if document-content extraction yields nothing, the flow selects
the hardcoded common-dish fallback. -/
theorem extraction_fallback_chain (resp : HttpResult) (content : String)
    (extraction : Option Json) (aiResp : HttpResult) :
    (aiCallFailed resp = true →
      extract_menu_items_from_content resp content = parse_menu_items_simple content) ∧
    (extractionYieldsNothing extraction = true →
      handle_extraction_result extraction aiResp = ContentOutcome.fallback (fallback_items.take 3)) := by
  constructor
  · intro hf
    unfold aiCallFailed at hf
    rw [Bool.not_eq_true'] at hf
    unfold extract_menu_items_from_content
    rw [if_neg]
    rw [hf]
    exact Bool.false_ne_true
  · intro hn
    cases extraction with
    | none => rfl
    | some j =>
      simp only [extractionYieldsNothing] at hn
      simp only [handle_extraction_result]
      by_cases ht : j.isTruthy = true
      · rw [ht] at hn
        simp only [Bool.not_true, Bool.false_or] at hn
        rw [if_pos ht]
        cases hdc : documentContent j with
        | none => rfl
        | some c =>
          rw [hdc] at hn
          have hc : c = "" := by simpa using hn
          simp [hc]
      · rw [if_neg ht]

/-- C8 witness: a timed-out AI call degrades to the simple parser, and an
absent extraction payload selects the first three hardcoded dishes. -/
theorem extraction_fallback_chain_witness :
    extract_menu_items_from_content HttpResult.timeout "Chicken Rice Deluxe" =
        parse_menu_items_simple "Chicken Rice Deluxe" ∧
      handle_extraction_result none HttpResult.timeout =
        ContentOutcome.fallback (fallback_items.take 3) := by
  have h := extraction_fallback_chain HttpResult.timeout "Chicken Rice Deluxe" none HttpResult.timeout
  exact ⟨h.1 rfl, h.2 rfl⟩
